import Mathlib

/-!
Verification of the dproc search core (src/search) against its specification.

The TypeScript sources are shallowly embedded: JavaScript values are modelled by
`JSVal` (numbers as rationals; NaN is represented by `none` in coercion results),
records by association lists, the language-model collaborator by explicit outcome
oracles, and the retrying planner loop by a fuelled recursion.  All definitions
are executable so witnesses evaluate by kernel reduction.
-/

namespace Dproc

/-- The opening curly brace character (written via its code point so that the
character never appears literally in the file). -/
def lbrace : Char := Char.ofNat 123

/-- The closing curly brace character. -/
def rbrace : Char := Char.ofNat 125

/-- Model of a JavaScript value as it flows through the search pipeline.
Numbers are modelled as rationals (JavaScript numbers are IEEE doubles; the
values reachable in this pipeline — JSON literals and their coercions — are
decimal rationals, and NaN is modelled as `none` where coercions can produce
it).  Arrays and objects carry their elements / fields. -/
inductive JSVal where
  | vUndefined
  | vNull
  | vBool (b : Bool)
  | vNum (q : ℚ)
  | vStr (s : String)
  | vArr (elems : List JSVal)
  | vObj (fields : List (String × JSVal))

instance : Inhabited JSVal := ⟨JSVal.vUndefined⟩

/-- A record (`Record<string, any>`), as an association list of fields. -/
abbrev Rec := List (String × JSVal)

/-- Characters treated as whitespace by JavaScript's `String.prototype.trim`
(the common ones; exotic Unicode space separators are not modelled). -/
def jsWsChar (c : Char) : Bool :=
  c = ' ' || c = '\t' || c = '\n' || c = '\r' || c = Char.ofNat 11 || c = Char.ofNat 12 ||
    c = Char.ofNat 160 || c = Char.ofNat 65279

/-- Model of `String.prototype.trim`. -/
def jsTrim (s : String) : String :=
  String.mk (((s.toList.dropWhile jsWsChar).reverse.dropWhile jsWsChar).reverse)

/-- ASCII lowercasing of one character, as done by `toLowerCase` on the ASCII
range (non-ASCII case mappings are not modelled). -/
def lowerChar (c : Char) : Char :=
  if 'A' ≤ c ∧ c ≤ 'Z' then Char.ofNat (c.toNat + 32) else c

/-- Model of `String.prototype.toLowerCase`. -/
def jsToLower (s : String) : String :=
  String.mk (s.toList.map lowerChar)

/-- Decimal digits to a natural number. -/
def digitsToNat (ds : List Char) : Nat :=
  ds.foldl (fun n c => n * 10 + (c.toNat - 48)) 0

/-- Zero-padded decimal rendering of `n` to at least `k` digits. -/
def natPad (n k : Nat) : String :=
  let s := toString n
  String.mk (List.replicate (k - s.length) '0') ++ s

/-- Decimal rendering of a nonnegative rational whose denominator divides a
power of ten (every number reachable in this pipeline does).  Mirrors
JavaScript's default number-to-string conversion on that range.  Implemented
with natural-number arithmetic only, so that it evaluates by kernel
reduction. -/
def numToStringNN (q : ℚ) : String :=
  if q.den = 1 then toString q.num
  else
    match (List.range 40).find? (fun k => 10 ^ k % q.den = 0) with
    | some k =>
      let m := q.num.toNat * (10 ^ k / q.den)
      toString (m / 10 ^ k) ++ "." ++ natPad (m % 10 ^ k) k
    | none => toString q.num ++ "/" ++ toString q.den

/-- Model of JavaScript number-to-string conversion (negativity read off the
numerator, which is equivalent to the sign of the value). -/
def numToString (q : ℚ) : String :=
  if q.num < 0 then "-" ++ numToStringNN (-q) else numToStringNN q

/-- `String(v)` for array elements inside `Array.prototype.join`: null and
undefined render as the empty string there. -/
def jsToStringFuel : Nat → JSVal → String := fun f v =>
  match v with
  | .vUndefined => "undefined"
  | .vNull => "null"
  | .vBool b => if b then "true" else "false"
  | .vNum q => numToString q
  | .vStr s => s
  | .vObj _ => "[object Object]"
  | .vArr xs =>
    match f with
    | 0 => ""
    | f + 1 =>
      String.intercalate "," (xs.map (fun e =>
        match e with
        | .vNull => ""
        | .vUndefined => ""
        | e => jsToStringFuel f e))

/-- Model of JavaScript `String(v)`. -/
def jsToString (v : JSVal) : String := jsToStringFuel 1000 v

/-- Splits a leading run of decimal digits off the input. -/
def splitDigits (cs : List Char) : List Char × List Char :=
  cs.span Char.isDigit

/-- Builds the rational `±mantissa · 10^e10` through `mkRat`, avoiding the
rational-arithmetic operations (which Batteries marks irreducible) so that
parsed numbers evaluate by kernel reduction. -/
def ratOfParts (neg : Bool) (mantissa : Nat) (e10 : Int) : ℚ :=
  let m : Int := if neg then -(mantissa : Int) else (mantissa : Int)
  if 0 ≤ e10 then mkRat (m * ((10 ^ e10.toNat : Nat) : Int)) 1
  else mkRat m (10 ^ (-e10).toNat)

/-- Core of the JavaScript `StringNumericLiteral` decimal grammar: digits with
an optional fractional part and an optional exponent.  Returns the mantissa
digits' value, the effective decimal exponent and the unconsumed input; fails
when neither integer nor fractional digits are present or when an exponent
marker is not followed by digits. -/
def parseDecCore (cs : List Char) : Option ((Nat × Int) × List Char) :=
  let wholePart := splitDigits cs
  let fracPart :=
    match wholePart.2 with
    | '.' :: afterDot => splitDigits afterDot
    | other => ([], other)
  if wholePart.1.isEmpty ∧ fracPart.1.isEmpty then none
  else
    let mant := digitsToNat (wholePart.1 ++ fracPart.1)
    let fracShift : Int := fracPart.1.length
    match fracPart.2 with
    | 'e' :: afterE | 'E' :: afterE =>
      let signedTail : Int × List Char :=
        match afterE with
        | '+' :: more => (1, more)
        | '-' :: more => (-1, more)
        | _ => (1, afterE)
      let expPart := splitDigits signedTail.2
      if expPart.1.isEmpty then none
      else some ((mant, signedTail.1 * (digitsToNat expPart.1 : Int) - fracShift), expPart.2)
    | other => some ((mant, -fracShift), other)

/-- Model of JavaScript `Number(string)`: trimmed empty input is 0, otherwise a
signed decimal literal consuming the whole string; anything else is NaN
(`none`).  `Infinity` and radix-prefixed literals are not modelled (they do not
arise in this pipeline). -/
def strToNum (s : String) : Option ℚ :=
  match (jsTrim s).toList with
  | [] => some 0
  | trimmed =>
    let body : Bool × List Char :=
      match trimmed with
      | '+' :: tail => (false, tail)
      | '-' :: tail => (true, tail)
      | _ => (false, trimmed)
    match parseDecCore body.2 with
    | some ((mant, e10), []) => some (ratOfParts body.1 mant e10)
    | _ => none

/-- Model of JavaScript `Number(v)` (`ToNumber`); `none` is NaN.  Arrays and
objects coerce through their string form, as in `ToPrimitive`. -/
def jsNumber (v : JSVal) : Option ℚ :=
  match v with
  | .vNum q => some q
  | .vBool b => some (if b then 1 else 0)
  | .vNull => some 0
  | .vUndefined => none
  | .vStr s => strToNum s
  | .vArr _ => strToNum (jsToString v)
  | .vObj _ => strToNum (jsToString v)

/-- JavaScript truthiness. -/
def jsTruthy (v : JSVal) : Bool :=
  match v with
  | .vUndefined => false
  | .vNull => false
  | .vBool b => b
  | .vNum q => decide (q ≠ 0)
  | .vStr s => decide (s ≠ "")
  | .vArr _ => true
  | .vObj _ => true

/-- JavaScript `a || b`. -/
def jsOr (a b : JSVal) : JSVal := if jsTruthy a then a else b

/-- Property lookup on an association list; later bindings win, as when an
object is built by successive assignments (e.g. by `JSON.parse`). -/
def objGet (fields : List (String × JSVal)) (k : String) : JSVal :=
  match (fields.reverse.find? (fun p => p.1 = k)) with
  | some p => p.2
  | none => .vUndefined

/-- Property access `v[k]` on an arbitrary value: objects look the key up,
other non-nullish values yield `undefined` for the keys this pipeline reads.
(Access on `null`/`undefined` throws; callers model that case explicitly.) -/
def objGetV (v : JSVal) (k : String) : JSVal :=
  match v with
  | .vObj fields => objGet fields k
  | _ => .vUndefined

/-- Record field access `record[k]`. -/
def recGet (r : Rec) (k : String) : JSVal := objGet r k

/-- Strict equality `v === vStr s` with a string literal, as in a `switch`. -/
def jsStrEq (v : JSVal) (s : String) : Bool :=
  match v with
  | .vStr t => t = s
  | _ => false

/-- Lexicographic comparison of character lists, the model used for
`localeCompare` (locale-specific collation is not modelled). -/
def lexCompare : List Char → List Char → Int
  | [], [] => 0
  | [], _ :: _ => -1
  | _ :: _, [] => 1
  | a :: as, b :: bs => if a < b then -1 else if b < a then 1 else lexCompare as bs

/-- Model of `String.prototype.localeCompare`, as a sign value. -/
def localeCompare (s t : String) : ℚ := ((lexCompare s.toList t.toList : Int) : ℚ)

/-- `a < b` on rationals, decided by cross-multiplying numerators and
denominators (kernel-reducible, unlike the order instances' internals). -/
def ratLtB (a b : ℚ) : Bool := decide (a.num * (b.den : Int) < b.num * (a.den : Int))

/-- `a ≤ b` on rationals, decided by cross-multiplication. -/
def ratLeB (a b : ℚ) : Bool := decide (a.num * (b.den : Int) ≤ b.num * (a.den : Int))

/-! ### JSON.parse

A model of `JSON.parse` over the standard JSON grammar (RFC 8259): whitespace,
`null`/`true`/`false`, numbers, strings with escapes, arrays and objects.
`none` models a thrown `SyntaxError`.  The three grammar productions
value/element-list/member-list are parsed by one fuelled function indexed by a
mode, so that everything is structurally recursive and kernel-reducible. -/

/-- JSON whitespace skipping. -/
def skipWs (cs : List Char) : List Char :=
  cs.dropWhile (fun c => c = ' ' || c = '\t' || c = '\n' || c = '\r')

/-- Consumes an expected literal character sequence. -/
def stripLit : List Char → List Char → Option (List Char)
  | [], cs => some cs
  | l :: ls, c :: cs => if c = l then stripLit ls cs else none
  | _ :: _, [] => none

/-- Hexadecimal digit value. -/
def hexVal (c : Char) : Option Nat :=
  if c.isDigit then some (c.toNat - 48)
  else if 'a' ≤ c ∧ c ≤ 'f' then some (c.toNat - 87)
  else if 'A' ≤ c ∧ c ≤ 'F' then some (c.toNat - 55)
  else none

/-- One JSON string escape after the backslash (surrogate pairing of `\u`
escapes is not modelled). -/
def escChar : Char → List Char → Option (Char × List Char)
  | '"', rest => some ('"', rest)
  | '\\', rest => some ('\\', rest)
  | '/', rest => some ('/', rest)
  | 'b', rest => some (Char.ofNat 8, rest)
  | 'f', rest => some (Char.ofNat 12, rest)
  | 'n', rest => some ('\n', rest)
  | 'r', rest => some ('\r', rest)
  | 't', rest => some ('\t', rest)
  | 'u', rest =>
    match rest with
    | a :: b :: c :: d :: rest2 =>
      match hexVal a, hexVal b, hexVal c, hexVal d with
      | some x, some y, some z, some w =>
        some (Char.ofNat (((x * 16 + y) * 16 + z) * 16 + w), rest2)
      | _, _, _, _ => none
    | _ => none
  | _, _ => none

/-- JSON string body after the opening quote: characters up to the closing
quote, with escapes; raw control characters are rejected. -/
def parseStringChars : Nat → List Char → Option (List Char × List Char) := fun f cs =>
  match f with
  | 0 => none
  | f + 1 =>
    match cs with
    | [] => none
    | '"' :: rest => some ([], rest)
    | '\\' :: rest =>
      match rest with
      | [] => none
      | e :: rest2 =>
        match escChar e rest2 with
        | none => none
        | some (c, rest3) => (parseStringChars f rest3).map (fun p => (c :: p.1, p.2))
    | c :: rest =>
      if c.toNat < 32 then none
      else (parseStringChars f rest).map (fun p => (c :: p.1, p.2))

/-- A JSON number: optional minus, an integer part without leading zeros, an
optional fraction, an optional exponent. -/
def parseJsonNumber (cs : List Char) : Option (ℚ × List Char) :=
  let signed : Bool × List Char :=
    match cs with
    | '-' :: tail => (true, tail)
    | _ => (false, cs)
  let wholePart := splitDigits signed.2
  if wholePart.1.isEmpty then none
  else if wholePart.1.length > 1 ∧ wholePart.1.head? = some '0' then none
  else if (match wholePart.2 with | '.' :: afterDot => (splitDigits afterDot).1.isEmpty | _ => false)
  then none
  else
    match parseDecCore signed.2 with
    | some ((mant, e10), rest) => some (ratOfParts signed.1 mant e10, rest)
    | none => none

/-- Parsing mode: a value, an array's elements, or an object's members. -/
inductive PMode where
  | pv
  | pe
  | pm

/-- Parsing result for the respective mode. -/
inductive PRes where
  | rv (v : JSVal)
  | re (vs : List JSVal)
  | rm (kvs : List (String × JSVal))

/-- The JSON grammar, fuelled. -/
def parseJ : Nat → PMode → List Char → Option (PRes × List Char)
  | 0, _, _ => none
  | f + 1, .pv, cs =>
    (match skipWs cs with
    | [] => none
    | c :: rest =>
      if c = '"' then
        (parseStringChars (rest.length + 1) rest).map (fun p => (.rv (.vStr (String.mk p.1)), p.2))
      else if c = lbrace then
        match skipWs rest with
        | c2 :: rest2 =>
          if c2 = rbrace then some (.rv (.vObj []), rest2)
          else
            match parseJ f .pm (c2 :: rest2) with
            | some (.rm kvs, r) => some (.rv (.vObj kvs), r)
            | _ => none
        | [] => none
      else if c = '[' then
        match skipWs rest with
        | ']' :: rest2 => some (.rv (.vArr []), rest2)
        | rest2 =>
          match parseJ f .pe rest2 with
          | some (.re vs, r) => some (.rv (.vArr vs), r)
          | _ => none
      else if c = 'n' then (stripLit ['u', 'l', 'l'] rest).map (fun r => (.rv .vNull, r))
      else if c = 't' then (stripLit ['r', 'u', 'e'] rest).map (fun r => (.rv (.vBool true), r))
      else if c = 'f' then (stripLit ['a', 'l', 's', 'e'] rest).map (fun r => (.rv (.vBool false), r))
      else (parseJsonNumber (c :: rest)).map (fun p => (.rv (.vNum p.1), p.2)))
  | f + 1, .pe, cs =>
    (match parseJ f .pv cs with
    | some (.rv v, rest) =>
      (match skipWs rest with
      | ',' :: rest2 =>
        match parseJ f .pe rest2 with
        | some (.re vs, r) => some (.re (v :: vs), r)
        | _ => none
      | ']' :: rest2 => some (.re [v], rest2)
      | _ => none)
    | _ => none)
  | f + 1, .pm, cs =>
    (match skipWs cs with
    | '"' :: rest =>
      (match parseStringChars (rest.length + 1) rest with
      | none => none
      | some (k, rest2) =>
        match skipWs rest2 with
        | ':' :: rest3 =>
          (match parseJ f .pv rest3 with
          | some (.rv v, rest4) =>
            (match skipWs rest4 with
            | ',' :: rest5 =>
              (match parseJ f .pm rest5 with
              | some (.rm kvs, r) => some (.rm ((String.mk k, v) :: kvs), r)
              | _ => none)
            | c :: rest5 => if c = rbrace then some (.rm [(String.mk k, v)], rest5) else none
            | [] => none)
          | _ => none)
        | _ => none)
    | _ => none)

/-- A single JSON value with its unconsumed input. -/
def parseValue (f : Nat) (cs : List Char) : Option (JSVal × List Char) :=
  match parseJ f .pv cs with
  | some (.rv v, r) => some (v, r)
  | _ => none

/-- Model of `JSON.parse`: one value, then only trailing whitespace. -/
def jsonParse (s : String) : Option JSVal :=
  match parseValue (s.length + 1) s.toList with
  | some (v, rest) => if (skipWs rest).isEmpty then some v else none
  | none => none

/-- Strict equality `===`.  Arrays and objects compare by reference in
JavaScript; the two operands reaching this comparison in the pipeline always
have distinct provenance (one from the record collection, one from a parsed
plan), so reference equality is modelled as `false` for them. -/
def jsStrictEq (a b : JSVal) : Bool :=
  match a, b with
  | .vUndefined, .vUndefined => true
  | .vNull, .vNull => true
  | .vBool x, .vBool y => x = y
  | .vNum x, .vNum y => x = y
  | .vStr x, .vStr y => x = y
  | _, _ => false

/-- Substring test, the model of `String.prototype.includes`. -/
def hasSubstr (needle : List Char) : List Char → Bool
  | [] => needle.isEmpty
  | c :: rest => needle.isPrefixOf (c :: rest) || hasSubstr needle rest

/-- A search plan as the planner produces it (`SearchPlan` in
src/search/types.ts).  The filters are the parsed filter objects; the other
fields hold whatever value the parsed JSON (or the defaulting logic)
provided. -/
structure SearchPlan where
  filters : List JSVal
  sortBy : JSVal
  sortOrder : JSVal
  limit : JSVal

/-- Is the value `null` or `undefined`? -/
def isNullish (v : JSVal) : Bool :=
  match v with
  | .vNull => true
  | .vUndefined => true
  | _ => false

namespace QueryExecutor

/-- `QueryExecutor.toBoolean` (src/search/query-executor.ts:123-129). -/
def toBoolean (value : JSVal) : Option Bool :=
  match value with
  | .vBool b => some b
  | _ =>
    let str := jsTrim (jsToLower (jsToString value))
    if str = "true" ∨ str = "1" then some true
    else if str = "false" ∨ str = "0" then some false
    else none

/-- `QueryExecutor.toNumber` (src/search/query-executor.ts:131-135): numbers
pass through, anything else goes through `Number(...)` with NaN mapped to 0. -/
def toNumber (value : JSVal) : ℚ :=
  match value with
  | .vNum q => q
  | _ => (jsNumber value).getD 0

/-- `QueryExecutor.compareEqual` (src/search/query-executor.ts:92-121): strict
equality, then case-insensitive trimmed string equality, then numeric
equality when neither side is NaN, then boolean coercion. -/
def compareEqual (value1 value2 : JSVal) : Bool :=
  if jsStrictEq value1 value2 then true
  else
    let str1 := jsToLower (jsTrim (jsToString value1))
    let str2 := jsToLower (jsTrim (jsToString value2))
    if str1 = str2 then true
    else
      let num1 := jsNumber value1
      let num2 := jsNumber value2
      if num1.isSome && num2.isSome && num1 = num2 then true
      else
        match toBoolean value1, toBoolean value2 with
        | some b1, some b2 => b1 = b2
        | _, _ => false

/-- The predicate of one filter over one record — the callback passed to
`records.filter` in `QueryExecutor.applyFilter`
(src/search/query-executor.ts:48-89).  A null/undefined field value satisfies
only the not-equal operator; an unknown operator retains the record. -/
def filterPred (filter : JSVal) (record : Rec) : Bool :=
  let fieldValue := recGet record (jsToString (objGetV filter "field"))
  let filterValue := objGetV filter "value"
  if isNullish fieldValue then jsStrEq (objGetV filter "operator") "!="
  else
    let op := objGetV filter "operator"
    if jsStrEq op "=" then compareEqual fieldValue filterValue
    else if jsStrEq op "!=" then !(compareEqual fieldValue filterValue)
    else if jsStrEq op ">" then ratLtB (toNumber filterValue) (toNumber fieldValue)
    else if jsStrEq op "<" then ratLtB (toNumber fieldValue) (toNumber filterValue)
    else if jsStrEq op ">=" then ratLeB (toNumber filterValue) (toNumber fieldValue)
    else if jsStrEq op "<=" then ratLeB (toNumber fieldValue) (toNumber filterValue)
    else if jsStrEq op "contains" then
      hasSubstr (jsToLower (jsToString filterValue)).toList (jsToLower (jsToString fieldValue)).toList
    else if jsStrEq op "startsWith" then
      (jsToLower (jsToString filterValue)).toList.isPrefixOf (jsToLower (jsToString fieldValue)).toList
    else if jsStrEq op "endsWith" then
      (jsToLower (jsToString filterValue)).toList.reverse.isPrefixOf
        (jsToLower (jsToString fieldValue)).toList.reverse
    else true

/-- `QueryExecutor.applyFilter`: keep the records satisfying the filter. -/
def applyFilter (records : List Rec) (filter : JSVal) : List Rec :=
  records.filter (filterPred filter)

/-- The comparator passed to `Array.prototype.sort` in
`QueryExecutor.sortResults` (src/search/query-executor.ts:142-158): nullish
values compare after everything (before the direction flip), numbers compare
by difference, everything else by string comparison. -/
def sortCompare (sortBy : String) (sortOrder : JSVal) (a b : Rec) : ℚ :=
  let aVal := recGet a sortBy
  let bVal := recGet b sortBy
  if isNullish aVal then 1
  else if isNullish bVal then -1
  else
    let comparison : ℚ :=
      match aVal, bVal with
      | .vNum x, .vNum y => x - y
      | _, _ => localeCompare (jsToString aVal) (jsToString bVal)
    if jsStrEq sortOrder "asc" then comparison else -comparison

/-- `a` may stay before `b` under the comparator: comparator value at most 0.
(`ratLeB c 0` decides `c ≤ 0` through the numerator.) -/
def sortLe (sortBy : String) (sortOrder : JSVal) (a b : Rec) : Bool :=
  ratLeB (sortCompare sortBy sortOrder a b) 0

/-- Stable merge of two lists under `le` (take left while its head may stay
first), fuelled by the total length. -/
def mergeFuel (le : Rec → Rec → Bool) : Nat → List Rec → List Rec → List Rec
  | 0, l, r => l ++ r
  | _ + 1, [], r => r
  | _ + 1, a :: as, [] => a :: as
  | f + 1, a :: as, b :: bs =>
    if le a b then a :: mergeFuel le f as (b :: bs) else b :: mergeFuel le f (a :: as) bs

/-- Stable top-down merge sort, fuelled; models the stable
`Array.prototype.sort` of the JavaScript engine. -/
def msortFuel (le : Rec → Rec → Bool) : Nat → List Rec → List Rec
  | 0, l => l
  | f + 1, l =>
    if l.length ≤ 1 then l
    else
      mergeFuel le l.length
        (msortFuel le f (l.take (l.length / 2)))
        (msortFuel le f (l.drop (l.length / 2)))

/-- `QueryExecutor.sortResults` (src/search/query-executor.ts:137-159). -/
def sortResults (records : List Rec) (sortBy : String) (sortOrder : JSVal) : List Rec :=
  msortFuel (sortLe sortBy sortOrder) records.length records

/-- The default parameter of `sortResults`: an undefined `sortOrder` argument
becomes `'asc'`. -/
def effSortOrder (so : JSVal) : JSVal :=
  match so with
  | .vUndefined => .vStr "asc"
  | so => so

/-- The guard `plan.limit && plan.limit > 0`: truthy, and numerically greater
than zero (`x > 0` coerces `x` with `ToNumber`; NaN compares false; the sign
of a rational is the sign of its numerator). -/
def limitGuard (v : JSVal) : Bool :=
  jsTruthy v &&
    (match jsNumber v with
    | some q => decide (0 < q.num)
    | none => false)

/-- The `end` argument `slice(0, plan.limit)` receives, after the
`ToIntegerOrInfinity` truncation toward zero (the guard has already ensured a
positive value). -/
def sliceBound (v : JSVal) : Nat :=
  match jsNumber v with
  | some q => q.num.toNat / q.den
  | none => 0

/-- `QueryExecutor.execute` (src/search/query-executor.ts:8-42): copy the
records, apply the filters in order, sort when `sortBy` is truthy, truncate
when the limit is a positive number. -/
def execute (records : List Rec) (plan : SearchPlan) : List Rec :=
  let results := records
  let results := plan.filters.foldl applyFilter results
  let results :=
    if jsTruthy plan.sortBy then
      sortResults results (jsToString plan.sortBy) (effSortOrder plan.sortOrder)
    else results
  if limitGuard plan.limit then results.take (sliceBound plan.limit) else results

/-- `execute`, additionally tracking the caller's array through JavaScript
array aliasing: the spread `[...bundle.records]` on line 11 allocates a fresh
array, `Array.prototype.filter` and `slice` allocate fresh arrays, and
`Array.prototype.sort` mutates its receiver in place.  The first component is
the caller's array after the call (it would be the sorted array had `results`
still aliased it when `sort` ran); the second is the returned result. -/
def executeTracked (records : List Rec) (plan : SearchPlan) : List Rec × List Rec :=
  let resultsAliasesCaller := false
  let results1 := plan.filters.foldl applyFilter records
  let aliasAfterFilters := resultsAliasesCaller && plan.filters.isEmpty
  let results2 :=
    if jsTruthy plan.sortBy then
      sortResults results1 (jsToString plan.sortBy) (effSortOrder plan.sortOrder)
    else results1
  let callerAfter := if aliasAfterFilters && jsTruthy plan.sortBy then results2 else records
  let results3 := if limitGuard plan.limit then results2.take (sliceBound plan.limit) else results2
  (callerAfter, results3)

end QueryExecutor

/-- One collaborator interaction during planning, as the planner's try block
observes it: either some error was thrown (by `getClient`, `generateText`, or
an authentication/configuration failure inside them), or a response text came
back. -/
inductive PlanOutcome where
  | err
  | resp (text : String)

namespace SearchPlanner

/-- The regex extraction `result.text.match` with the pattern "open brace,
anything, close brace" (src/search/search-planner.ts:133): the match is
greedy, so it spans from the first opening brace to the last closing brace of
the whole text; there is no match when no closing brace follows an opening
brace. -/
def extractBraces (s : String) : Option String :=
  let cs := s.toList
  match List.findIdx? (fun c => c = lbrace) cs, List.findIdx? (fun c => c = rbrace) cs.reverse with
  | some i, some rj =>
    let j := cs.length - 1 - rj
    if i < j then some (String.mk ((cs.drop i).take (j - i + 1))) else none
  | _, _ => none

/-- Validation and defaulting of the parsed plan
(src/search/search-planner.ts:150-155): filters must be an array, sortOrder
defaults to `'desc'` via `||`, limit chains `parsed.limit || options?.limit
|| 10`. -/
def buildPlan (parsed : JSVal) (limitHint : JSVal) : SearchPlan :=
  ⟨(match objGetV parsed "filters" with
    | .vArr xs => xs
    | _ => []),
   objGetV parsed "sortBy",
   jsOr (objGetV parsed "sortOrder") (.vStr "desc"),
   jsOr (objGetV parsed "limit") (jsOr limitHint (.vNum 10))⟩

/-- One attempt of the planner's retry loop, from the collaborator call to a
plan: `none` when the attempt fails — a thrown collaborator error, an empty
trimmed response, a response without a brace-delimited substring, or a
substring `JSON.parse` rejects.  (In the source the non-final attempts reach
the next iteration by `continue` and the final one by `throw`-then-`catch`;
both routes fail the attempt with identical observable effect.) -/
def attemptParse (outcome : PlanOutcome) (limitHint : JSVal) : Option SearchPlan :=
  match outcome with
  | .err => none
  | .resp t =>
    if (jsTrim t).length = 0 then none
    else
      match extractBraces t with
      | none => none
      | some jtxt =>
        match jsonParse jtxt with
        | none => none
        | some parsed => some (buildPlan parsed limitHint)

/-- The fallback plan returned after all retries fail
(src/search/search-planner.ts:182-185): no filters, no sortBy/sortOrder, limit
`options?.limit || 10`. -/
def fallbackPlan (limitHint : JSVal) : SearchPlan :=
  ⟨[], .vUndefined, .vUndefined, jsOr limitHint (.vNum 10)⟩

/-- Observable outcome of one `SearchPlanner.plan` invocation: the returned
plan, how many collaborator calls were issued, and the sleep durations (ms)
requested between attempts.  `plan` never throws — every loop iteration
catches — so the model is a total function. -/
structure PlanRun where
  plan : SearchPlan
  calls : Nat
  delays : List Nat

/-- The retry loop of `SearchPlanner.plan` (src/search/search-planner.ts:
103-186), fuelled by the remaining attempts: each failed attempt waits
`2^attempt * 1000` ms while `attempt < maxRetries` (maxRetries = 3), and the
loop falls through to the fallback plan. -/
def planGo (oracle : Nat → PlanOutcome) (limitHint : JSVal) :
    Nat → Nat → Nat → List Nat → PlanRun
  | 0, _, calls, delays => ⟨fallbackPlan limitHint, calls, delays⟩
  | rem + 1, attempt, calls, delays =>
    match attemptParse (oracle attempt) limitHint with
    | some p => ⟨p, calls + 1, delays⟩
    | none =>
      if attempt < 3 then
        planGo oracle limitHint rem (attempt + 1) (calls + 1) (delays ++ [2 ^ attempt * 1000])
      else
        planGo oracle limitHint rem (attempt + 1) (calls + 1) delays

/-- `SearchPlanner.plan`, abstracted over the collaborator outcomes per
attempt.  The prompt construction and query sanitisation only shape the text
sent to the collaborator, which the outcome oracle already abstracts, so they
do not appear here. -/
def plan (oracle : Nat → PlanOutcome) (limitHint : JSVal) : PlanRun :=
  planGo oracle limitHint 3 1 0 []

end SearchPlanner

/-- The collaborator outcome of `generateJson` during consolidation: a thrown
error (network/authentication failure, or a response that is not valid JSON —
`generateJson` itself throws on malformed JSON), or the parsed value. -/
inductive ConsOutcome where
  | err
  | ok (v : JSVal)

namespace ResultConsolidator

/-- The `answer`/`insights`/`stats` triple `consolidate` returns. -/
structure ConsOutput where
  answer : JSVal
  insights : JSVal
  stats : JSVal

/-- The catch-all fallback of `consolidate`
(src/search/result-consolidator.ts:74-78). -/
def fallback (n : Nat) : ConsOutput :=
  ⟨.vStr ("Found " ++ toString n ++ " matching records."), .vArr [],
   .vObj [("total", .vNum (n : ℚ))]⟩

/-- `ResultConsolidator.consolidate` (src/search/result-consolidator.ts:8-80),
abstracted over the collaborator outcome; the second component counts
collaborator calls.  An empty match list short-circuits before any call.  A
returned `null`/`undefined` makes the property access `result.answer` in the
return statement throw, which the catch turns into the fallback.  The
function is total: every failure path is caught in the source. -/
def consolidate (results : List Rec) (outcome : ConsOutcome) : ConsOutput × Nat :=
  if results.length = 0 then
    (⟨.vStr "No matching records found for your query.", .vArr [], .vObj []⟩, 0)
  else
    match outcome with
    | .err => (fallback results.length, 1)
    | .ok v =>
      if isNullish v then (fallback results.length, 1)
      else
        (⟨jsOr (objGetV v "answer") (.vStr "Results found."),
          jsOr (objGetV v "insights") (.vArr []),
          jsOr (objGetV v "stats") (.vObj [])⟩, 1)

end ResultConsolidator

/-- The `SearchResult` structure (src/search/types.ts). -/
structure SearchResult where
  query : String
  answer : JSVal
  insights : JSVal
  stats : JSVal
  matchingRecords : List Rec
  totalMatches : Nat
  executionTime : Nat

/-- Observable outcome of one `SearchEngine.query` invocation: the result, the
total number of collaborator calls, and the planner's requested delays. -/
structure QueryRun where
  result : SearchResult
  llmCalls : Nat
  delays : List Nat

namespace SearchEngine

/-- `SearchEngine.query` (src/search/search-engine.ts:20-72): plan, execute,
consolidate, assemble.  `records` is `bundle.records`; the bundle metadata
only shapes the planning prompt, which the outcome oracle abstracts.
`elapsed` stands for the wall-clock measurement.  All three stages are total
in the model (each catches its own failures in the source), so the `catch`
wrapper of `query` — which only fires for malformed-bundle errors thrown
outside those stages — is unreachable here. -/
def query (records : List Rec) (q : String) (limitHint : JSVal)
    (planOracle : Nat → PlanOutcome) (consOutcome : ConsOutcome) (elapsed : Nat) : QueryRun :=
  let pr := SearchPlanner.plan planOracle limitHint
  let matching := QueryExecutor.execute records pr.plan
  let cons := ResultConsolidator.consolidate matching consOutcome
  ⟨⟨q, cons.1.answer, cons.1.insights, cons.1.stats, matching, matching.length, elapsed⟩,
   pr.calls + cons.2, pr.delays⟩

end SearchEngine

/-! ### Definitions used only in claim statements -/

/-- Does one attempt fail (any shape: thrown error, empty response, missing or
unparsable JSON)?  Used to phrase "every attempt fails". -/
def attemptFails (limitHint : JSVal) (o : PlanOutcome) : Bool :=
  (SearchPlanner.attemptParse o limitHint).isNone

/-- Does one attempt fail with a response-shaped failure (empty response, or
unparsable/absent JSON) rather than a thrown error? -/
def respFails (limitHint : JSVal) (o : PlanOutcome) : Bool :=
  match o with
  | .err => false
  | .resp t => (SearchPlanner.attemptParse (.resp t) limitHint).isNone

/-- Depth-counting scan for a balanced brace-delimited prefix (the input is
expected to start at an opening brace). -/
def balScan : Nat → List Char → List Char → Option (List Char)
  | _, _, [] => none
  | depth, acc, c :: rest =>
    if c = lbrace then balScan (depth + 1) (c :: acc) rest
    else if c = rbrace then
      if depth = 1 then some (c :: acc).reverse else balScan (depth - 1) (c :: acc) rest
    else balScan depth (c :: acc) rest

/-- Modelled from the spec: "locate the first `(open brace) ... (close brace)`
balanced-looking JSON substring" — the substring starting at the first opening
brace and ending at its matching closing brace.  This is the spec's
description of the extraction; the source's regex extraction is
`SearchPlanner.extractBraces`, and claim C4 compares the two. -/
def firstBalancedBraces (s : String) : Option String :=
  (balScan 0 [] (s.toList.dropWhile (fun c => ¬ c = lbrace))).map String.mk

/-- Stage (a) of the spec's equality cascade: exact value equality. -/
def eqStageExact (a b : JSVal) : Bool := jsStrictEq a b

/-- Stage (b) of the spec's equality cascade: case-insensitive, trimmed string
equality. -/
def eqStageString (a b : JSVal) : Bool :=
  jsToLower (jsTrim (jsToString a)) = jsToLower (jsTrim (jsToString b))

/-- Stage (c) of the spec's equality cascade: both sides parse as numbers
(not NaN) and are numerically equal. -/
def eqStageNumber (a b : JSVal) : Bool :=
  match jsNumber a, jsNumber b with
  | some x, some y => x = y
  | _, _ => false

/-- Stage (d) of the spec's equality cascade: both sides coerce to the same
boolean under the true/1 and false/0 mapping. -/
def eqStageBool (a b : JSVal) : Bool :=
  match QueryExecutor.toBoolean a, QueryExecutor.toBoolean b with
  | some x, some y => x = y
  | _, _ => false

/-- Is the record's value at `key` nullish? -/
def nullAt (key : String) (r : Rec) : Bool := isNullish (recGet r key)

/-- The record's value at `key` when it is a number. -/
def numView (key : String) (r : Rec) : Option ℚ :=
  match recGet r key with
  | .vNum q => some q
  | _ => none

/-- A filter object as the planner's examples shape it. -/
def mkFilter (field op : String) (value : JSVal) : JSVal :=
  .vObj [("field", .vStr field), ("operator", .vStr op), ("value", value)]

/-! ### Concrete data for witnesses and counterexamples -/

/-- The spec's walk-through record: John, 30, NYC. -/
def recJohn : Rec := [("name", .vStr "John"), ("age", .vNum 30), ("city", .vStr "NYC")]

/-- The spec's walk-through record: Jane, 25, LA. -/
def recJane : Rec := [("name", .vStr "Jane"), ("age", .vNum 25), ("city", .vStr "LA")]

/-- A record without an age field (its age reads as undefined). -/
def recNoAge : Rec := [("name", .vStr "Bob"), ("city", .vStr "SF")]

/-- Three records, for limit-truncation scenarios. -/
def demoRecords3 : List Rec := [recJohn, recJane, recNoAge]

/-- A planning oracle whose first attempt throws (a fatal, not
empty/parse-shaped, collaborator failure such as an authentication error) and
whose second attempt answers with a well-formed plan of limit 7. -/
def oracleFatalThenOk : Nat → PlanOutcome := fun n =>
  if n = 1 then .err else .resp "\x7b\"filters\":[],\"limit\":7\x7d"

/-- A response text containing two complete JSON objects: the first balanced
brace substring parses (limit 7), while the first-to-last-brace span does
not. -/
def twoObjectText : String := "a \x7b\"limit\":7\x7d b \x7b\"x\":1\x7d c"

/-- A response text with one JSON object surrounded by junk; the greedy
first-to-last-brace span coincides with the object. -/
def goodText : String := "x \x7b\"limit\":7,\"sortOrder\":\"asc\"\x7d"

/-- Records for the sorting witness: ages 30, absent, 25. -/
def demoSortRecords : List Rec := [[("age", .vNum 30)], recNoAge, [("age", .vNum 25)]]

/-- A planning oracle that always answers with a well-formed plan of limit 2. -/
def oracleLimit2 : Nat → PlanOutcome := fun _ => .resp "\x7b\"filters\":[],\"limit\":2\x7d"

/-! ### Lemmas about the merge sort model -/

namespace QueryExecutor

theorem length_mergeFuel (le : Rec → Rec → Bool) :
    ∀ (f : Nat) (l r : List Rec), (mergeFuel le f l r).length = l.length + r.length := by
  intro f
  induction f with
  | zero => intro l r; simp [mergeFuel]
  | succ f ih =>
    intro l r
    cases l with
    | nil => simp [mergeFuel]
    | cons a as =>
      cases r with
      | nil => simp [mergeFuel]
      | cons b bs =>
        simp only [mergeFuel]
        split <;> simp [ih] <;> omega

theorem mem_mergeFuel (le : Rec → Rec → Bool) :
    ∀ (f : Nat) (l r : List Rec) (x : Rec), x ∈ mergeFuel le f l r → x ∈ l ∨ x ∈ r := by
  intro f
  induction f with
  | zero =>
    intro l r x h
    simp only [mergeFuel] at h
    exact List.mem_append.mp h
  | succ f ih =>
    intro l r x h
    cases l with
    | nil => right; simpa [mergeFuel] using h
    | cons a as =>
      cases r with
      | nil => left; simpa [mergeFuel] using h
      | cons b bs =>
        simp only [mergeFuel] at h
        split at h
        · rcases List.mem_cons.mp h with rfl | h
          · left; simp
          · rcases ih as (b :: bs) x h with h | h
            · left; simp [h]
            · right; exact h
        · rcases List.mem_cons.mp h with rfl | h
          · right; simp
          · rcases ih (a :: as) bs x h with h | h
            · left; exact h
            · right; simp [h]

theorem pairwise_mergeFuel {Q : Rec → Prop} {R : Rec → Rec → Prop} (le : Rec → Rec → Bool)
    (hT : ∀ a b c, Q a → Q b → Q c → R a b → R b c → R a c)
    (hle : ∀ a b, Q a → Q b → le a b = true → R a b)
    (hnle : ∀ a b, Q a → Q b → le a b = false → R b a) :
    ∀ (f : Nat) (l r : List Rec), l.length + r.length ≤ f →
      (∀ x ∈ l, Q x) → (∀ x ∈ r, Q x) →
      l.Pairwise R → r.Pairwise R → (mergeFuel le f l r).Pairwise R := by
  intro f
  induction f with
  | zero =>
    intro l r hlen hQl hQr hl hr
    have hl0 : l = [] := List.eq_nil_of_length_eq_zero (by omega)
    have hr0 : r = [] := List.eq_nil_of_length_eq_zero (by omega)
    subst hl0; subst hr0
    simp [mergeFuel]
  | succ f ih =>
    intro l r hlen hQl hQr hl hr
    cases l with
    | nil => simpa [mergeFuel] using hr
    | cons a as =>
      cases r with
      | nil => simpa [mergeFuel] using hl
      | cons b bs =>
        rw [List.pairwise_cons] at hl hr
        obtain ⟨ha, has⟩ := hl
        obtain ⟨hb, hbs⟩ := hr
        have hQa : Q a := hQl a (by simp)
        have hQb : Q b := hQr b (by simp)
        simp only [mergeFuel]
        by_cases hab : le a b = true
        · rw [if_pos hab, List.pairwise_cons]
          refine ⟨?_, ?_⟩
          · intro x hx
            rcases mem_mergeFuel le f as (b :: bs) x hx with hx | hx
            · exact ha x hx
            · rcases List.mem_cons.mp hx with rfl | hx
              · exact hle a x hQa hQb hab
              · exact hT a b x hQa hQb (hQr x (by simp [hx])) (hle a b hQa hQb hab) (hb x hx)
          · exact ih as (b :: bs) (by simp at hlen ⊢; omega)
              (fun x hx => hQl x (by simp [hx])) hQr has (List.pairwise_cons.mpr ⟨hb, hbs⟩)
        · have hab' : le a b = false := by
            cases h : le a b
            · rfl
            · exact absurd h hab
          rw [if_neg hab, List.pairwise_cons]
          refine ⟨?_, ?_⟩
          · intro x hx
            rcases mem_mergeFuel le f (a :: as) bs x hx with hx | hx
            · rcases List.mem_cons.mp hx with rfl | hx
              · exact hnle x b hQa hQb hab'
              · exact hT b a x hQb hQa (hQl x (by simp [hx])) (hnle a b hQa hQb hab') (ha x hx)
            · exact hb x hx
          · exact ih (a :: as) bs (by simp at hlen ⊢; omega)
              hQl (fun x hx => hQr x (by simp [hx])) (List.pairwise_cons.mpr ⟨ha, has⟩) hbs

theorem length_msortFuel (le : Rec → Rec → Bool) :
    ∀ (f : Nat) (l : List Rec), (msortFuel le f l).length = l.length := by
  intro f
  induction f with
  | zero => intro l; simp [msortFuel]
  | succ f ih =>
    intro l
    simp only [msortFuel]
    split
    · rfl
    · rw [length_mergeFuel, ih, ih, List.length_take, List.length_drop]
      omega

theorem mem_msortFuel (le : Rec → Rec → Bool) :
    ∀ (f : Nat) (l : List Rec) (x : Rec), x ∈ msortFuel le f l → x ∈ l := by
  intro f
  induction f with
  | zero => intro l x h; simpa [msortFuel] using h
  | succ f ih =>
    intro l x h
    simp only [msortFuel] at h
    split at h
    · exact h
    · rcases mem_mergeFuel le l.length _ _ x h with h | h
      · exact List.mem_of_mem_take (ih _ x h)
      · exact List.mem_of_mem_drop (ih _ x h)

theorem pairwise_msortFuel {Q : Rec → Prop} {R : Rec → Rec → Prop} (le : Rec → Rec → Bool)
    (hT : ∀ a b c, Q a → Q b → Q c → R a b → R b c → R a c)
    (hle : ∀ a b, Q a → Q b → le a b = true → R a b)
    (hnle : ∀ a b, Q a → Q b → le a b = false → R b a) :
    ∀ (f : Nat) (l : List Rec), l.length ≤ f → (∀ x ∈ l, Q x) →
      (msortFuel le f l).Pairwise R := by
  intro f
  induction f with
  | zero =>
    intro l hlen hQ
    have hl0 : l = [] := List.eq_nil_of_length_eq_zero (by omega)
    subst hl0
    simp [msortFuel]
  | succ f ih =>
    intro l hlen hQ
    simp only [msortFuel]
    split
    · rename_i hlen1
      cases l with
      | nil => simp
      | cons a as =>
        cases as with
        | nil => simp
        | cons b bs => simp at hlen1
    · rename_i hlen1
      apply pairwise_mergeFuel le hT hle hnle
      · rw [length_msortFuel, length_msortFuel, List.length_take, List.length_drop]
        omega
      · intro x hx
        exact hQ x (List.mem_of_mem_take (mem_msortFuel le f _ x hx))
      · intro x hx
        exact hQ x (List.mem_of_mem_drop (mem_msortFuel le f _ x hx))
      · exact ih _ (by rw [List.length_take]; omega) (fun x hx => hQ x (List.mem_of_mem_take hx))
      · exact ih _ (by rw [List.length_drop]; omega) (fun x hx => hQ x (List.mem_of_mem_drop hx))

theorem pairwise_sortResults {Q : Rec → Prop} {R : Rec → Rec → Prop}
    {key : String} {ord : JSVal}
    (hT : ∀ a b c, Q a → Q b → Q c → R a b → R b c → R a c)
    (hle : ∀ a b, Q a → Q b → sortLe key ord a b = true → R a b)
    (hnle : ∀ a b, Q a → Q b → sortLe key ord a b = false → R b a)
    (records : List Rec) (hQ : ∀ x ∈ records, Q x) :
    (sortResults records key ord).Pairwise R :=
  pairwise_msortFuel (sortLe key ord) hT hle hnle records.length records le_rfl hQ

end QueryExecutor

theorem ratLeB_zero_iff (q : ℚ) : ratLeB q 0 = true ↔ q ≤ 0 := by
  simp [ratLeB, Rat.num_nonpos]

theorem sortLe_null_left {key : String} {ord : JSVal} {a b : Rec}
    (ha : nullAt key a = true) : QueryExecutor.sortLe key ord a b = false := by
  unfold nullAt at ha
  simp [QueryExecutor.sortLe, QueryExecutor.sortCompare, ha, ratLeB]

theorem sortLe_null_right {key : String} {ord : JSVal} {a b : Rec}
    (ha : nullAt key a = false) (hb : nullAt key b = true) :
    QueryExecutor.sortLe key ord a b = true := by
  unfold nullAt at ha hb
  simp [QueryExecutor.sortLe, QueryExecutor.sortCompare, ha, hb, ratLeB]

theorem sortLe_num_asc {key : String} {a b : Rec} {x y : ℚ}
    (hx : recGet a key = .vNum x) (hy : recGet b key = .vNum y) :
    QueryExecutor.sortLe key (.vStr "asc") a b = true ↔ x ≤ y := by
  simp only [QueryExecutor.sortLe, QueryExecutor.sortCompare, hx, hy, isNullish, jsStrEq]
  rw [if_neg (by simp), if_neg (by simp), if_pos (by simp), ratLeB_zero_iff, sub_nonpos]

theorem nullAt_eq_false_of_num {key : String} {a : Rec} {x : ℚ}
    (hx : recGet a key = .vNum x) : nullAt key a = false := by
  simp [nullAt, hx, isNullish]

theorem numView_eq_some {key : String} {r : Rec} {q : ℚ} :
    numView key r = some q ↔ recGet r key = .vNum q := by
  unfold numView
  cases h : recGet r key <;> simp

theorem mem_foldl_applyFilter :
    ∀ (fs : List JSVal) (rs : List Rec) (x : Rec),
      x ∈ fs.foldl QueryExecutor.applyFilter rs → x ∈ rs := by
  intro fs
  induction fs with
  | nil => intro rs x h; simpa using h
  | cons f fs ih =>
    intro rs x h
    have hmem := ih (QueryExecutor.applyFilter rs f) x h
    exact (List.mem_filter.mp hmem).1

/-! ### Claims -/

/-- Claim C7: executing the plan with no filters, no sortBy and limit 0
returns the records unchanged and in order; more generally any non-positive
limit (and an absent limit) performs no truncation. -/
theorem C7_execute_empty_plan_identity :
    ∀ (records : List Rec),
      QueryExecutor.execute records ⟨[], .vUndefined, .vUndefined, .vNum 0⟩ = records ∧
      (∀ q : ℚ, q ≤ 0 → QueryExecutor.execute records ⟨[], .vUndefined, .vUndefined, .vNum q⟩ = records) ∧
      QueryExecutor.execute records ⟨[], .vUndefined, .vUndefined, .vUndefined⟩ = records := by
  intro records
  refine ⟨rfl, ?_, rfl⟩
  intro q hq
  have hnum : ¬ (0 < q.num) := by
    have := Rat.num_nonpos.mpr hq
    omega
  have hguard : QueryExecutor.limitGuard (.vNum q) = false := by
    simp [QueryExecutor.limitGuard, jsNumber, jsTruthy, hnum]
  simp [QueryExecutor.execute, hguard, jsTruthy]

/-- Witness for C7 at limit −3 over three records. -/
theorem C7_witness :
    QueryExecutor.execute demoRecords3 ⟨[], .vUndefined, .vUndefined, .vNum (-3)⟩ = demoRecords3 :=
  (C7_execute_empty_plan_identity demoRecords3).2.1 (-3) (by norm_num)

/-- Claim C8: `consolidate` never raises (it is a total function of the
collaborator outcome); an empty match list short-circuits to the canned
no-match output without any collaborator call; a non-empty match list whose
collaborator interaction fails (a thrown error, which includes malformed
JSON — `generateJson` throws on it) produces exactly the Found-N fallback. -/
theorem C8_consolidate_fallback_shapes :
    (∀ outcome : ConsOutcome,
      ResultConsolidator.consolidate [] outcome =
        (⟨.vStr "No matching records found for your query.", .vArr [], .vObj []⟩, 0)) ∧
    (∀ ms : List Rec, ms ≠ [] →
      ResultConsolidator.consolidate ms .err =
        (⟨.vStr ("Found " ++ toString ms.length ++ " matching records."), .vArr [],
          .vObj [("total", .vNum (ms.length : ℚ))]⟩, 1)) := by
  constructor
  · intro outcome; rfl
  · intro ms hne
    have hlen : ms.length ≠ 0 := by simpa using hne
    simp [ResultConsolidator.consolidate, ResultConsolidator.fallback, hlen]

/-- Witness for C8 with two matching records. -/
theorem C8_witness :
    ResultConsolidator.consolidate [recJohn, recJane] .err =
      (⟨.vStr "Found 2 matching records.", .vArr [], .vObj [("total", .vNum 2)]⟩, 1) :=
  C8_consolidate_fallback_shapes.2 [recJohn, recJane] (by simp)

/-- Claim C9: `execute` leaves the caller-supplied record sequence unchanged —
in the aliasing-tracking model the caller's array after the call is the input
array, because the spread copy precedes the in-place sort; the tracked run
returns the same result as `execute`. -/
theorem C9_execute_no_mutation :
    ∀ (records : List Rec) (plan : SearchPlan),
      (QueryExecutor.executeTracked records plan).1 = records ∧
      (QueryExecutor.executeTracked records plan).2 = QueryExecutor.execute records plan := by
  intro records plan
  exact ⟨by simp [QueryExecutor.executeTracked], rfl⟩

/-- Claim C10: in every result of `SearchEngine.query`, `totalMatches` equals
the length of `matchingRecords` — the post-truncation count.  Concretely,
with a plan of limit 2 over three records the reported total is 2, not the
pre-limit match count 3. -/
theorem C10_totalMatches_post_limit :
    (∀ (records : List Rec) (q : String) (hint : JSVal) (planOracle : Nat → PlanOutcome)
      (consOutcome : ConsOutcome) (elapsed : Nat),
      (SearchEngine.query records q hint planOracle consOutcome elapsed).result.totalMatches =
        (SearchEngine.query records q hint planOracle consOutcome elapsed).result.matchingRecords.length) ∧
    (SearchEngine.query demoRecords3 "q" .vUndefined oracleLimit2 .err 0).result.totalMatches = 2 ∧
    demoRecords3.length = 3 :=
  ⟨fun _ _ _ _ _ _ => rfl, rfl, rfl⟩

/-- Claim C5: `compareEqual` is exactly the four-stage coercion cascade (exact
equality, case-insensitive trimmed string equality, numeric equality when both
sides parse as non-NaN numbers, boolean coercion equality); the not-equal
operator applies its negation (on non-nullish field values, and the equal
operator applies it positively); and the four quoted instances hold. -/
theorem C5_compareEqual_cascade :
    (∀ a b : JSVal,
      QueryExecutor.compareEqual a b =
        (eqStageExact a b || eqStageString a b || eqStageNumber a b || eqStageBool a b)) ∧
    (∀ (f : JSVal) (r : Rec),
      objGetV f "operator" = .vStr "!=" →
      isNullish (recGet r (jsToString (objGetV f "field"))) = false →
      QueryExecutor.filterPred f r =
        !QueryExecutor.compareEqual (recGet r (jsToString (objGetV f "field"))) (objGetV f "value")) ∧
    (∀ (f : JSVal) (r : Rec),
      objGetV f "operator" = .vStr "=" →
      isNullish (recGet r (jsToString (objGetV f "field"))) = false →
      QueryExecutor.filterPred f r =
        QueryExecutor.compareEqual (recGet r (jsToString (objGetV f "field"))) (objGetV f "value")) ∧
    QueryExecutor.compareEqual (.vStr "30") (.vNum 30) = true ∧
    QueryExecutor.compareEqual (.vStr "true") (.vBool true) = true ∧
    QueryExecutor.compareEqual (.vStr "abc") (.vStr "ABC") = true ∧
    QueryExecutor.compareEqual (.vStr "abc") (.vNum 123) = false := by
  refine ⟨?_, ?_, ?_, rfl, rfl, rfl, rfl⟩
  · intro a b
    simp only [QueryExecutor.compareEqual, eqStageExact, eqStageString, eqStageNumber, eqStageBool]
    split_ifs with h1 h2 h3
    · simp [h1]
    · simp [h2]
    · rcases hA : jsNumber a with _ | x <;> rcases hB : jsNumber b with _ | y <;>
        simp [hA, hB] at h3 ⊢ <;> simp [h1, h2, h3]
    · rcases hA : jsNumber a with _ | x <;> rcases hB : jsNumber b with _ | y <;>
        simp [hA, hB] at h3 ⊢ <;> simp [h1, h2, h3]
  · intro f r hop hnn
    simp [QueryExecutor.filterPred, hop, hnn, jsStrEq]
  · intro f r hop hnn
    simp [QueryExecutor.filterPred, hop, hnn, jsStrEq]

/-- Witness for C5: the negated cascade on a concrete not-equal filter. -/
theorem C5_witness :
    QueryExecutor.filterPred (mkFilter "city" "!=" (.vStr "NYC")) recJohn =
      !QueryExecutor.compareEqual (.vStr "NYC") (.vStr "NYC") :=
  C5_compareEqual_cascade.2.1 (mkFilter "city" "!=" (.vStr "NYC")) recJohn rfl rfl

/-- Claim C2 (amended): when every attempt fails (in particular when every
response is empty), `plan` issues exactly 3 collaborator calls, never raises
(the model is a total function returning this run), and returns the fallback
plan with no filters and with limit the caller's hint when that hint is
supplied and truthy (nonzero), else 10. -/
theorem C2_all_fail_fallback_plan :
    ∀ (oracle : Nat → PlanOutcome) (hint : JSVal),
      (∀ a, 1 ≤ a → a ≤ 3 → attemptFails hint (oracle a) = true) →
      SearchPlanner.plan oracle hint =
        ⟨⟨[], .vUndefined, .vUndefined, if jsTruthy hint then hint else .vNum 10⟩, 3, [2000, 4000]⟩ := by
  intro oracle hint h
  have e1 : SearchPlanner.attemptParse (oracle 1) hint = none :=
    Option.isNone_iff_eq_none.mp (h 1 (by norm_num) (by norm_num))
  have e2 : SearchPlanner.attemptParse (oracle 2) hint = none :=
    Option.isNone_iff_eq_none.mp (h 2 (by norm_num) (by norm_num))
  have e3 : SearchPlanner.attemptParse (oracle 3) hint = none :=
    Option.isNone_iff_eq_none.mp (h 3 (by norm_num) (by norm_num))
  simp [SearchPlanner.plan, SearchPlanner.planGo, e1, e2, e3, SearchPlanner.fallbackPlan, jsOr]

/-- Witness for C2 with all-empty responses and no limit hint. -/
theorem C2_witness :
    SearchPlanner.plan (fun _ => .resp "") .vUndefined =
      ⟨⟨[], .vUndefined, .vUndefined, .vNum 10⟩, 3, [2000, 4000]⟩ :=
  C2_all_fail_fallback_plan (fun _ => .resp "") .vUndefined (fun _ _ _ => rfl)

/-- Counterexample for C2 as stated: a supplied limit hint of 0 is falsy, so
the fallback limit is 10, not the hint. -/
theorem C2_counterexample :
    (SearchPlanner.plan (fun _ => .resp "") (.vNum 0)).plan.limit = .vNum 10 ∧
    ¬ (SearchPlanner.plan (fun _ => .resp "") (.vNum 0)).plan.limit = .vNum 0 := by
  refine ⟨rfl, ?_⟩
  rw [show (SearchPlanner.plan (fun _ => .resp "") (.vNum 0)).plan.limit = .vNum 10 from rfl]
  simp

/-- Claim C3 (amended): when every attempt fails with an empty response or
unparsable/absent JSON, the backoff delay `2^attempt` seconds follows each
failed attempt except the last, so the requested sleep sequence is
2000 ms, 4000 ms — the third delay, 8000 ms, is never requested. -/
theorem C3_backoff_delay_sequence :
    ∀ (oracle : Nat → PlanOutcome) (hint : JSVal),
      (∀ a, 1 ≤ a → a ≤ 3 → respFails hint (oracle a) = true) →
      (SearchPlanner.plan oracle hint).delays = [2000, 4000] := by
  intro oracle hint h
  have parseNone : ∀ a, 1 ≤ a → a ≤ 3 → SearchPlanner.attemptParse (oracle a) hint = none := by
    intro a h1 h3
    have := h a h1 h3
    cases ho : oracle a with
    | err => rw [ho] at this; simp [respFails] at this
    | resp t =>
      rw [ho] at this
      simpa [respFails, Option.isNone_iff_eq_none] using this
  have e1 := parseNone 1 (by norm_num) (by norm_num)
  have e2 := parseNone 2 (by norm_num) (by norm_num)
  have e3 := parseNone 3 (by norm_num) (by norm_num)
  simp [SearchPlanner.plan, SearchPlanner.planGo, e1, e2, e3]

/-- Witness for C3 with all-empty responses. -/
theorem C3_witness :
    (SearchPlanner.plan (fun _ => .resp "") .vUndefined).delays = [2000, 4000] :=
  C3_backoff_delay_sequence (fun _ => .resp "") .vUndefined (fun _ _ _ => rfl)

/-- Counterexample for C3 as stated: with every response empty the delay
sequence is not 2000, 4000, 8000. -/
theorem C3_counterexample :
    ¬ (SearchPlanner.plan (fun _ => .resp "") .vUndefined).delays = [2000, 4000, 8000] := by
  rw [show (SearchPlanner.plan (fun _ => .resp "") .vUndefined).delays = [2000, 4000] from rfl]
  simp

/-- Claim C4 (amended): for a response whose trimmed text is non-empty, an
attempt extracts the span from the first opening brace to the last closing
brace (greedy regex), parses that span as JSON, and on success returns after
one call and no delay the plan built with the defaults: filters coerced to an
array (empty if absent or not an array), sortOrder `'desc'` when absent or
falsy, and limit the parsed limit when truthy, else the caller's truthy hint,
else 10. -/
theorem C4_response_handling :
    ∀ (t : String) (hint : JSVal) (j : String) (v : JSVal),
      (jsTrim t).length ≠ 0 →
      SearchPlanner.extractBraces t = some j →
      jsonParse j = some v →
      SearchPlanner.plan (fun _ => .resp t) hint =
        ⟨⟨(match objGetV v "filters" with
           | .vArr xs => xs
           | _ => []),
          objGetV v "sortBy",
          jsOr (objGetV v "sortOrder") (.vStr "desc"),
          jsOr (objGetV v "limit") (jsOr hint (.vNum 10))⟩, 1, []⟩ := by
  intro t hint j v hne hext hparse
  have hattempt : SearchPlanner.attemptParse (.resp t) hint =
      some (SearchPlanner.buildPlan v hint) := by
    simp [SearchPlanner.attemptParse, hne, hext, hparse]
  simp [SearchPlanner.plan, SearchPlanner.planGo, hattempt, SearchPlanner.buildPlan]

/-- Witness for C4: junk before one object; the greedy span is the object. -/
theorem C4_witness :
    SearchPlanner.plan (fun _ => .resp goodText) .vUndefined =
      ⟨⟨[], .vUndefined, .vStr "asc", .vNum 7⟩, 1, []⟩ :=
  C4_response_handling goodText .vUndefined "\x7b\"limit\":7,\"sortOrder\":\"asc\"\x7d"
    (.vObj [("limit", .vNum 7), ("sortOrder", .vStr "asc")])
    (by decide) rfl rfl

/-- Counterexample for C4 as stated: on a text holding two complete JSON
objects, the first balanced brace substring parses with limit 7, but the
returned plan has the fallback limit 10 — the code's greedy first-to-last
span is unparsable, so the attempt fails instead of using the first balanced
substring. -/
theorem C4_counterexample :
    firstBalancedBraces twoObjectText = some "\x7b\"limit\":7\x7d" ∧
    objGetV ((jsonParse "\x7b\"limit\":7\x7d").getD .vUndefined) "limit" = .vNum 7 ∧
    (SearchPlanner.plan (fun _ => .resp twoObjectText) .vUndefined).plan.limit = .vNum 10 ∧
    ¬ (SearchPlanner.plan (fun _ => .resp twoObjectText) .vUndefined).plan.limit = .vNum 7 := by
  refine ⟨rfl, rfl, rfl, ?_⟩
  rw [show (SearchPlanner.plan (fun _ => .resp twoObjectText) .vUndefined).plan.limit = .vNum 10
    from rfl]
  simp

/-- Claim C1 (amended): a fatal collaborator failure (one thrown by the
client, not shaped like an empty or unparsable response) is retried by the
planner exactly like any other failure and, after the 3 attempts, degrades to
the fallback plan with the 2000/4000 ms delays; a fatal consolidation failure
degrades to the Found-N fallback; and `query` does not raise for collaborator
failures of any shape — with every collaborator interaction failing fatally it
still returns the assembled best-effort result. -/
theorem C1_fatal_collaborator_degrades :
    (∀ hint : JSVal,
      SearchPlanner.plan (fun _ => .err) hint =
        ⟨SearchPlanner.fallbackPlan hint, 3, [2000, 4000]⟩) ∧
    (∀ ms : List Rec, ms ≠ [] →
      ResultConsolidator.consolidate ms .err = (ResultConsolidator.fallback ms.length, 1)) ∧
    (∀ (records : List Rec) (q : String) (hint : JSVal) (elapsed : Nat),
      SearchEngine.query records q hint (fun _ => .err) .err elapsed =
        (let matching := QueryExecutor.execute records (SearchPlanner.fallbackPlan hint)
         let cons := ResultConsolidator.consolidate matching .err
         ⟨⟨q, cons.1.answer, cons.1.insights, cons.1.stats, matching, matching.length, elapsed⟩,
          3 + cons.2, [2000, 4000]⟩)) := by
  refine ⟨fun hint => rfl, ?_, fun records q hint elapsed => rfl⟩
  intro ms hne
  have hlen : ms.length ≠ 0 := by simpa using hne
  simp [ResultConsolidator.consolidate, hlen]

/-- Witness for C1: a concrete non-empty match list degrades to the fallback
summary, and a concrete all-fatal planning run returns the fallback plan. -/
theorem C1_witness :
    ResultConsolidator.consolidate [recJohn] .err = (ResultConsolidator.fallback 1, 1) ∧
    SearchPlanner.plan (fun _ => .err) .vUndefined =
      ⟨SearchPlanner.fallbackPlan .vUndefined, 3, [2000, 4000]⟩ :=
  ⟨C1_fatal_collaborator_degrades.2.1 [recJohn] (by simp),
   C1_fatal_collaborator_degrades.1 .vUndefined⟩

/-- Counterexample for C1 as stated: after a fatal first attempt the planner
issues a second collaborator call and returns the plan built from the second
response — the fatal failure is retried (2 calls, one backoff delay) and
nothing is raised, contradicting "not retried, raises a wrapped failure". -/
theorem C1_counterexample :
    (SearchPlanner.plan oracleFatalThenOk .vUndefined).calls = 2 ∧
    (SearchPlanner.plan oracleFatalThenOk .vUndefined).plan.limit = .vNum 7 ∧
    (SearchPlanner.plan oracleFatalThenOk .vUndefined).delays = [2000] :=
  ⟨rfl, rfl, rfl⟩

theorem sortResults_pairwise_nullsLast (records : List Rec) (key : String) (ord : JSVal) :
    (QueryExecutor.sortResults records key ord).Pairwise
      (fun a b => nullAt key a = true → nullAt key b = true) := by
  apply QueryExecutor.pairwise_sortResults (Q := fun _ => True)
  · intro a b c _ _ _ h1 h2 h
    exact h2 (h1 h)
  · intro a b _ _ hle hna
    exact absurd hle (by simp [sortLe_null_left hna])
  · intro a b _ _ hle hnb
    cases hna : nullAt key a with
    | false =>
      exact absurd (sortLe_null_right hna hnb : QueryExecutor.sortLe key ord a b = true)
        (by simp [hle])
    | true => rfl
  · intro x _
    trivial

theorem sortResults_pairwise_asc_nums (records : List Rec) (key : String)
    (hQ : ∀ r ∈ records, nullAt key r = true ∨ (numView key r).isSome = true) :
    (QueryExecutor.sortResults records key (.vStr "asc")).Pairwise
      (fun a b => (nullAt key a = true → nullAt key b = true) ∧
        (∀ x y : ℚ, recGet a key = .vNum x → recGet b key = .vNum y → x ≤ y)) := by
  apply QueryExecutor.pairwise_sortResults
    (Q := fun r => nullAt key r = true ∨ (numView key r).isSome = true)
  · intro a b c _ hQb _ h1 h2
    refine ⟨fun h => h2.1 (h1.1 h), ?_⟩
    intro x z hx hz
    rcases hQb with hb | hb
    · have hnc := h2.1 hb
      unfold nullAt at hnc
      rw [hz] at hnc
      simp [isNullish] at hnc
    · rcases Option.isSome_iff_exists.mp hb with ⟨y, hy⟩
      have hy' := numView_eq_some.mp hy
      exact le_trans (h1.2 x y hx hy') (h2.2 y z hy' hz)
  · intro a b _ _ hle
    refine ⟨fun hna => absurd hle (by simp [sortLe_null_left hna]), ?_⟩
    intro x y hx hy
    exact (sortLe_num_asc hx hy).mp hle
  · intro a b _ _ hle
    refine ⟨?_, ?_⟩
    · intro hnb
      cases hna : nullAt key a with
      | false =>
        exact absurd
          (sortLe_null_right hna hnb : QueryExecutor.sortLe key (.vStr "asc") a b = true)
          (by simp [hle])
      | true => rfl
    · intro p q hp hq
      by_contra hpq
      have hqp : q ≤ p := le_of_lt (lt_of_not_le hpq)
      exact absurd ((sortLe_num_asc hq hp).mpr hqp) (by simp [hle])
  · exact hQ

/-- Claim C6: in the output of `execute` under a plan whose `sortBy` is set,
every record whose sort-field value is null/undefined comes after every record
with a non-null value, whatever the sortOrder; and when every record's
sort-field value is nullish-or-numeric and the sortOrder is `'asc'`, the
numeric values appear in non-decreasing order. -/
theorem C6_sorted_output_nulls_last :
    ∀ (records : List Rec) (plan : SearchPlan),
      jsTruthy plan.sortBy = true →
      ((QueryExecutor.execute records plan).Pairwise (fun a b =>
          nullAt (jsToString plan.sortBy) a = true →
            nullAt (jsToString plan.sortBy) b = true)) ∧
      ((∀ r ∈ records,
          nullAt (jsToString plan.sortBy) r = true ∨
            (numView (jsToString plan.sortBy) r).isSome = true) →
        plan.sortOrder = .vStr "asc" →
        ((QueryExecutor.execute records plan).filterMap
            (numView (jsToString plan.sortBy))).Pairwise (· ≤ ·)) := by
  intro records plan hsb
  have hsubl : (QueryExecutor.execute records plan).Sublist
      (QueryExecutor.sortResults (plan.filters.foldl QueryExecutor.applyFilter records)
        (jsToString plan.sortBy) (QueryExecutor.effSortOrder plan.sortOrder)) := by
    simp only [QueryExecutor.execute, hsb, if_true]
    split
    · exact List.take_sublist _ _
    · exact List.Sublist.refl _
  constructor
  · exact List.Pairwise.sublist hsubl
      (sortResults_pairwise_nullsLast (plan.filters.foldl QueryExecutor.applyFilter records)
        (jsToString plan.sortBy) (QueryExecutor.effSortOrder plan.sortOrder))
  · intro hQ hasc
    have hord : QueryExecutor.effSortOrder plan.sortOrder = .vStr "asc" := by
      rw [hasc]
      rfl
    rw [hord] at hsubl
    have hp2 := sortResults_pairwise_asc_nums
      (plan.filters.foldl QueryExecutor.applyFilter records) (jsToString plan.sortBy)
      (fun x hx => hQ x (mem_foldl_applyFilter plan.filters records x hx))
    have hfm : ((QueryExecutor.sortResults (plan.filters.foldl QueryExecutor.applyFilter records)
        (jsToString plan.sortBy) (.vStr "asc")).filterMap
          (numView (jsToString plan.sortBy))).Pairwise (· ≤ ·) := by
      rw [List.pairwise_filterMap]
      refine hp2.imp ?_
      intro a b h x hx y hy
      exact h.2 x y (numView_eq_some.mp (Option.mem_def.mp hx))
        (numView_eq_some.mp (Option.mem_def.mp hy))
    exact List.Pairwise.sublist (hsubl.filterMap _) hfm

/-- Witness for C6 over three records with ages 30, absent, 25 sorted
ascending by age. -/
theorem C6_witness :
    ((QueryExecutor.execute demoSortRecords ⟨[], .vStr "age", .vStr "asc", .vUndefined⟩).Pairwise
      (fun a b => nullAt "age" a = true → nullAt "age" b = true)) ∧
    ((QueryExecutor.execute demoSortRecords ⟨[], .vStr "age", .vStr "asc", .vUndefined⟩).filterMap
      (numView "age")).Pairwise (· ≤ ·) := by
  have h := C6_sorted_output_nulls_last demoSortRecords ⟨[], .vStr "age", .vStr "asc", .vUndefined⟩
    (by decide)
  exact ⟨h.1, h.2 (by decide) rfl⟩

end Dproc
